import Mathlib

/-!
Verification of the per-peer NTP clock-filter core of this repository
(`src/ntp-proto/src/filter.rs`): sample computation from packets
(`Peer::update_with_packet`), the 8-stage shift register
(`LastMeasurements::shift_and_insert`), the delay-sorted temporary list
(dispersion and jitter), peer fitness (`Peer::accept_synchronization`,
`Peer::root_distance`), poll scheduling (`Peer::poll_update`), the
reachability register (`Reach`), and the intersection algorithm
(`construct_candidate_list` / `find_interval`).

The supporting time-arithmetic modules (`NtpDuration`, `NtpTimestamp`,
`NtpHeader`, `NtpLeapIndicator`) are not part of the source snapshot; they
are modelled from the specification: durations are signed 64-bit
fixed-point values (units of 2^-32 s) with release-mode wrapping
arithmetic, timestamps are unsigned 64-bit fixed-point values with
wrap-aware subtraction, and the `f64` computations of the jitter path are
modelled over the real numbers.
-/

namespace NtpFilter

/-- Two's-complement wrap of an integer into the signed 64-bit range,
matching release-mode Rust `i64` arithmetic. -/
def i64wrap (x : Int) : Int := (x + 2 ^ 63) % 2 ^ 64 - 2 ^ 63

/-- Two's-complement wrap into the signed 32-bit range (release-mode `i32`). -/
def i32wrap (x : Int) : Int := (x + 2 ^ 31) % 2 ^ 32 - 2 ^ 31

/-- Reinterpretation `as i32` of an unsigned machine integer: keep the low
32 bits, read them as two's complement. -/
def i32ofNat (x : Nat) : Int := i32wrap (x : Int)

/-- Release-mode `usize` subtraction `n - f`, wrapping modulo 2^64. -/
def usizeSub (n f : Nat) : Nat := (((n : Int) - (f : Int)) % 2 ^ 64).toNat

/-- Modelled from the spec: `NtpDuration` addition (signed 64-bit
fixed-point, release-mode wrap). The `NtpDuration` type itself is not in
the source snapshot. -/
def addD (a b : Int) : Int := i64wrap (a + b)

/-- Modelled from the spec: `NtpDuration` subtraction. -/
def subD (a b : Int) : Int := i64wrap (a - b)

/-- Modelled from the spec: `NtpDuration` multiplication by an `i64`. -/
def mulD (a k : Int) : Int := i64wrap (a * k)

/-- Modelled from the spec: `NtpDuration` division by an `i64`; Rust
integer division truncates toward zero, which is `Int.tdiv`. -/
def divD (a k : Int) : Int := i64wrap (Int.tdiv a k)

/-- Modelled from the spec: wrap-aware subtraction of two unsigned 64-bit
`NtpTimestamp` values, yielding a signed `NtpDuration`. -/
def tsSub (a b : Nat) : Int := i64wrap ((a : Int) - (b : Int))

/-- Modelled from the spec: `NtpTimestamp + NtpDuration`, the duration
reinterpreted as `u64` with a wrapping add. -/
def tsAdd (t : Nat) (d : Int) : Nat := (((t : Int) + d) % 2 ^ 64).toNat

/-- Modelled from the spec: `NtpDuration::ONE`, one second. -/
def NtpDuration.ONE : Int := 2 ^ 32

/-- Modelled from the spec: `NtpDuration::ZERO`. -/
def NtpDuration.ZERO : Int := 0

/-- Modelled from the spec: `NtpDuration::MAX_DISPERSION`, sixteen seconds. -/
def NtpDuration.MAX_DISPERSION : Int := 16 * 2 ^ 32

/-- Modelled from the spec: `NtpDuration::MIN_DISPERSION`, 2^-16 seconds. -/
def NtpDuration.MIN_DISPERSION : Int := 2 ^ 16

/-- Modelled from the spec: `NtpDuration::from_exponent(e)` is 2^e seconds
in fixed point, i.e. a left shift of one by `32 + e`; the shift amount is
masked modulo 64 as in release-mode Rust, and a negative shift (exponents
below -32) yields zero. -/
def NtpDuration.from_exponent (e : Int) : Int :=
  if 32 + e < 0 then 0 else i64wrap (2 ^ ((32 + e).toNat % 64))

/-- Modelled from the spec: `NtpDuration::from_seconds` on an `f64`
modelled as a real number, rounding the scaled value down to fixed point. -/
noncomputable def NtpDuration.from_seconds (x : ℝ) : Int := Int.floor (x * 2 ^ 32)

/-- Modelled from the spec: `NtpDuration::to_seconds` into an `f64`
modelled as a real number. -/
noncomputable def NtpDuration.to_seconds (d : Int) : ℝ := (d : ℝ) / 2 ^ 32

/-- `const MAX_STRATUM: u8 = 16`. -/
def MAX_STRATUM : Nat := 16

/-- `const MAX_DISTANCE: NtpDuration = NtpDuration::ONE`. -/
def MAX_DISTANCE : Int := NtpDuration.ONE

/-- `const BROADCAST_DELAY: NtpDuration = NtpDuration::ONE.divided_by(250)`. -/
def BROADCAST_DELAY : Int := divD NtpDuration.ONE 250

/-- `multiply_by_phi`: 15 ppm frequency-tolerance aging,
`(duration * 15) / 1_000_000`. -/
def multiply_by_phi (duration : Int) : Int := divD (mulD duration 15) 1000000

/-- `FilterTuple`: one clock-filter sample. -/
structure FilterTuple where
  offset : Int
  delay : Int
  dispersion : Int
  time : Nat
deriving DecidableEq

/-- `FilterTuple::DUMMY`. -/
def FilterTuple.DUMMY : FilterTuple :=
  { offset := NtpDuration.ZERO
    delay := NtpDuration.MAX_DISPERSION
    dispersion := NtpDuration.MAX_DISPERSION
    time := 0 }

/-- `FilterTuple::is_dummy`. -/
def FilterTuple.is_dummy (t : FilterTuple) : Bool := decide (t = FilterTuple.DUMMY)

/-- The dispersion-aging step applied to each stage inside
`shift_and_insert`: a non-dummy stage gets the correction added, a dummy
stage is left untouched. -/
def age_tuple (c : Int) (t : FilterTuple) : FilterTuple :=
  if t.is_dummy then t else { t with dispersion := addD t.dispersion c }

/-- The loop body of `LastMeasurements::shift_and_insert`: age the stage,
then swap it with the traversal carrier `current`. -/
def shift_loop (c : Int) : FilterTuple → List FilterTuple → List FilterTuple
  | _, [] => []
  | current, t :: rest => current :: shift_loop c (age_tuple c t) rest

/-- `LastMeasurements`: the per-peer 8-stage shift register (index 0 is
newest). -/
structure LastMeasurements where
  register : List FilterTuple
deriving DecidableEq

/-- `LastMeasurements::new()`: all stages dummy. -/
def LastMeasurements.new : LastMeasurements :=
  ⟨List.replicate 8 FilterTuple.DUMMY⟩

/-- `LastMeasurements::shift_and_insert`. -/
def LastMeasurements.shift_and_insert (lm : LastMeasurements) (current : FilterTuple)
    (dispersion_correction : Int) : LastMeasurements :=
  ⟨shift_loop dispersion_correction current lm.register⟩

/-- Stable insertion into a delay-sorted list; the comparator on our
integral delays is total, so the `unwrap_or(Less)` branch of the source
comparator is dead code. -/
def insert_by_delay (x : FilterTuple) : List FilterTuple → List FilterTuple
  | [] => [x]
  | y :: ys => if x.delay ≤ y.delay then x :: y :: ys else y :: insert_by_delay x ys

/-- Stable sort by ascending delay, modelling the `sort_by` call of
`TemporaryList::from_clock_filter_contents`. -/
def sort_by_delay : List FilterTuple → List FilterTuple
  | [] => []
  | x :: xs => insert_by_delay x (sort_by_delay xs)

/-- `TemporaryList`: the delay-sorted copy of the shift register. -/
structure TemporaryList where
  register : List FilterTuple
deriving DecidableEq

/-- `TemporaryList::from_clock_filter_contents`. -/
def TemporaryList.from_clock_filter_contents (source : LastMeasurements) : TemporaryList :=
  ⟨sort_by_delay source.register⟩

/-- `TemporaryList::smallest_delay`: entry 0 of the sorted register (the
source indexes a fixed 8-element array; the dummy default is the total
analogue for the list model). -/
def TemporaryList.smallest_delay (t : TemporaryList) : FilterTuple :=
  t.register.headD FilterTuple.DUMMY

/-- `TemporaryList::valid_tuples`: the prefix obtained by discarding the
trailing run of dummies. -/
def TemporaryList.valid_tuples (t : TemporaryList) : List FilterTuple :=
  let num_invalid_tuples := (t.register.reverse.takeWhile (·.is_dummy)).length
  t.register.take (t.register.length - num_invalid_tuples)

/-- `TemporaryList::dispersion`: sum of `dispersion / 2^(i+1)` over the
stages. -/
def TemporaryList.dispersion (t : TemporaryList) : Int :=
  (t.register.enum.map fun p => divD p.2.dispersion (2 ^ (p.1 + 1))).foldl addD 0

/-- `TemporaryList::jitter_help` on the valid tuples; the `f64` pipeline is
modelled over ℝ.  In the `len == 1` case Rust divides by `0.0` (giving NaN
or infinity) and `f64::max` ignores a NaN argument, so the final clamp
still yields at least `system_precision`; Mathlib's `x / 0 = 0` convention
reaches the same clamp.  In the `len == 0` case the `usize` subtraction
wraps to 2^64 - 1 in release mode, which the model reproduces. -/
noncomputable def TemporaryList.jitter_help (valid_tuples : List FilterTuple)
    (smallest_delay : FilterTuple) (system_precision : ℝ) : ℝ :=
  let root_mean_square :=
    Real.sqrt ((valid_tuples.map fun t =>
      NtpDuration.to_seconds (subD t.offset smallest_delay.offset) ^ 2).sum)
  let jitter := root_mean_square / ((usizeSub valid_tuples.length 1 : Nat) : ℝ)
  max jitter system_precision

/-- `TemporaryList::jitter`. -/
noncomputable def TemporaryList.jitter (t : TemporaryList) (smallest_delay : FilterTuple)
    (system_precision : ℝ) : ℝ :=
  TemporaryList.jitter_help t.valid_tuples smallest_delay system_precision

/-- Modelled from the spec: the leap indicator of `crate::packet`, with
`is_synchronized` true for every variant except `Unsynchronized`. -/
inductive NtpLeapIndicator
  | NoWarning
  | Positive
  | Negative
  | Unsynchronized
deriving DecidableEq

/-- Modelled from the spec: `NtpLeapIndicator::is_synchronized`. -/
def NtpLeapIndicator.is_synchronized : NtpLeapIndicator → Bool
  | .Unsynchronized => false
  | _ => true

/-- Modelled from the spec: `crate::packet::NtpAssociationMode`. -/
inductive NtpAssociationMode
  | SymmetricActive
  | SymmetricPassive
  | Client
  | Server
  | Broadcast
deriving DecidableEq

/-- Modelled from the spec: the decoded `NtpHeader` consumed by the core
(stratum is a `u8`, poll and precision are `i8` log2-seconds). -/
structure NtpHeader where
  leap : NtpLeapIndicator
  mode : NtpAssociationMode
  stratum : Nat
  poll : Int
  precision : Int
  root_delay : Int
  root_dispersion : Int
  reference_id : Nat
  reference_timestamp : Nat
  origin_timestamp : Nat
  receive_timestamp : Nat
  transmit_timestamp : Nat
deriving DecidableEq

/-- `PeerStatistics`; the `f64` jitter is modelled as a real. -/
structure PeerStatistics where
  offset : Int
  delay : Int
  dispersion : Int
  jitter : ℝ

/-- `Peer`: per-association state (the reachability register `Reach(u8)`
is carried as its underlying `u8` value). -/
structure Peer where
  statistics : PeerStatistics
  last_measurements : LastMeasurements
  last_packet : NtpHeader
  time : Nat
  peer_id : Nat
  our_id : Nat
  host_poll : Int
  burst : Nat
  out_date : Nat
  next_date : Nat
  reach : Nat

/-- `Reach::is_reachable`: any nonzero bit means reachable. -/
def Reach.is_reachable (r : Nat) : Bool := decide (r ≠ 0)

/-- `Reach::update`: set the rightmost bit. -/
def Reach.update (r : Nat) : Nat := r ||| 1

/-- `Decision`, the result of `clock_filter`. -/
inductive Decision
  | Ignore
  | Process
deriving DecidableEq

/-- `Peer::clock_filter`. -/
noncomputable def Peer.clock_filter (p : Peer) (new_tuple : FilterTuple)
    (system_leap_indicator : NtpLeapIndicator) (system_precision : ℝ) :
    Decision × Peer :=
  let dispersion_correction := multiply_by_phi (tsSub new_tuple.time p.time)
  let lm := p.last_measurements.shift_and_insert new_tuple dispersion_correction
  let p1 : Peer := { p with last_measurements := lm }
  let temporary_list := TemporaryList.from_clock_filter_contents lm
  let smallest_delay := temporary_list.smallest_delay
  if tsSub smallest_delay.time p1.time ≤ NtpDuration.ZERO ∧
      system_leap_indicator.is_synchronized = true then
    (Decision.Ignore, p1)
  else
    (Decision.Process,
      { p1 with
          statistics :=
            { offset := smallest_delay.offset
              delay := smallest_delay.delay
              dispersion := temporary_list.dispersion
              jitter := temporary_list.jitter smallest_delay system_precision }
          time := smallest_delay.time })

/-- `Peer::root_distance`. -/
noncomputable def Peer.root_distance (p : Peer) (local_clock_time : Nat) : Int :=
  addD
    (addD
      (addD
        (addD
          (divD (max NtpDuration.MIN_DISPERSION
            (addD p.last_packet.root_delay p.statistics.delay)) 2)
          p.last_packet.root_dispersion)
        p.statistics.dispersion)
      (multiply_by_phi (tsSub local_clock_time p.time)))
    (NtpDuration.from_seconds p.statistics.jitter)

/-- `Peer::accept_synchronization`.  The source ends in a
`TODO: An unreachable error occurs if the server is unreachable.`
comment: no reachability check is performed. -/
noncomputable def Peer.accept_synchronization (p : Peer) (local_clock_time : Nat)
    (system_poll : Int) : Bool :=
  if p.last_packet.leap.is_synchronized = false ∨ MAX_STRATUM ≤ p.last_packet.stratum then
    false
  else if addD MAX_DISTANCE (multiply_by_phi system_poll) < p.root_distance local_clock_time then
    false
  else if p.last_packet.stratum ≠ 1 ∧ p.last_packet.reference_id = p.our_id then
    false
  else
    true

/-- `clamp_ntp_duration`: `value.min(upper_bound).max(lower_bound)`. -/
def clamp_ntp_duration (lower_bound value upper_bound : Int) : Int :=
  max (min value upper_bound) lower_bound

/-- `Peer::poll_update`.  The early return of the `burst > 0` branch skips
the final never-schedule-in-the-past clamp. -/
def Peer.poll_update (p : Peer) (local_clock_time : Nat) (poll_interval : Int) : Peer :=
  let host_poll := clamp_ntp_duration (NtpDuration.from_exponent 4) poll_interval
    (NtpDuration.from_exponent 17)
  let p1 : Peer := { p with host_poll := host_poll }
  if 0 < p1.burst then
    if p1.next_date ≠ local_clock_time then p1
    else
      let p2 : Peer := { p1 with next_date := tsAdd p1.next_date BROADCAST_DELAY }
      if p2.next_date < local_clock_time then
        { p2 with next_date := tsAdd local_clock_time NtpDuration.ONE }
      else p2
  else
    let offset := clamp_ntp_duration (NtpDuration.from_exponent 4) p1.host_poll
      (NtpDuration.from_exponent p1.last_packet.poll)
    let p2 : Peer := { p1 with next_date := tsAdd p1.out_date offset }
    if p2.next_date < local_clock_time then
      { p2 with next_date := tsAdd local_clock_time NtpDuration.ONE }
    else p2

/-- The stratum rewrite at the top of `update_with_packet`: stratum 0
(unspecified) is mapped to `MAX_STRATUM`. -/
def normalize_stratum (packet : NtpHeader) : NtpHeader :=
  if packet.stratum = 0 then { packet with stratum := MAX_STRATUM } else packet

/-- `Peer::update_with_packet`. -/
def Peer.update_with_packet (p : Peer) (local_clock_time : Nat) (system_precision : Int)
    (packet : NtpHeader) (destination_timestamp : Nat) : Option FilterTuple × Peer :=
  let packet := normalize_stratum packet
  let p1 : Peer := { p with last_packet := packet }
  if packet.leap.is_synchronized = false ∨ MAX_STRATUM ≤ packet.stratum then
    (none, p1)
  else
    let packet_dispersion := addD (divD packet.root_delay 2) packet.root_dispersion
    let time_travel := packet.transmit_timestamp < packet.reference_timestamp
    if NtpDuration.MAX_DISPERSION ≤ packet_dispersion ∨ time_travel then
      (none, p1)
    else
      let p2 := p1.poll_update local_clock_time p1.host_poll
      let p3 : Peer := { p2 with reach := Reach.update p2.reach }
      let packet_precision := NtpDuration.from_exponent packet.precision
      let tuple :=
        if packet.mode = NtpAssociationMode.Broadcast then
          { offset := tsSub packet.transmit_timestamp destination_timestamp
            delay := BROADCAST_DELAY
            dispersion := addD (addD packet_precision system_precision)
              (multiply_by_phi (mulD BROADCAST_DELAY 2))
            time := local_clock_time : FilterTuple }
        else
          let offset1 := tsSub packet.receive_timestamp packet.origin_timestamp
          let offset2 := tsSub destination_timestamp packet.transmit_timestamp
          let offset := divD (addD offset1 offset2) 2
          let delta1 := tsSub destination_timestamp packet.origin_timestamp
          let delta2 := tsSub packet.receive_timestamp packet.transmit_timestamp
          let delay := max system_precision (subD delta1 delta2)
          let dispersion := addD (addD packet_precision system_precision)
            (multiply_by_phi delta1)
          { offset := offset, delay := delay, dispersion := dispersion
            time := local_clock_time : FilterTuple }
      (some tuple, p3)

/-- `EndpointType` of a candidate-list entry. -/
inductive EndpointType
  | Upper
  | Middle
  | Lower
deriving DecidableEq

/-- The `repr(i8)` value of an `EndpointType` (`as i32` in the sweeps). -/
def EndpointType.value : EndpointType → Int
  | .Upper => 1
  | .Middle => 0
  | .Lower => -1

/-- `CandidateTuple`: one chime-list entry.  The source also carries a
borrowed `&Peer`, which `find_interval` never reads. -/
structure CandidateTuple where
  endpoint_type : EndpointType
  edge : Int
deriving DecidableEq

/-- The lower-endpoint scan of `find_interval` (left to right): returns the
recorded low edge, if any, and the updated midpoint count `found`.  The
threshold is `(n - found) as i32` with release-mode `usize` wrap, and
`chime` is release-mode `i32` arithmetic. -/
def lower_sweep (n : Nat) : Int → Nat → List CandidateTuple → Option Int × Nat
  | _, found, [] => (none, found)
  | chime, found, t :: rest =>
    let chime := i32wrap (chime - t.endpoint_type.value)
    if i32ofNat (usizeSub n found) ≤ chime then (some t.edge, found)
    else
      lower_sweep n chime
        (if t.endpoint_type = EndpointType.Middle then found + 1 else found) rest

/-- The upper-endpoint scan of `find_interval`; it is applied to the
reversed chime list (highest to lowest). -/
def upper_sweep (n : Nat) : Int → Nat → List CandidateTuple → Option Int × Nat
  | _, found, [] => (none, found)
  | chime, found, t :: rest =>
    let chime := i32wrap (chime + t.endpoint_type.value)
    if i32ofNat (usizeSub n found) ≤ chime then (some t.edge, found)
    else
      upper_sweep n chime
        (if t.endpoint_type = EndpointType.Middle then found + 1 else found) rest

/-- The `allow` loop of `find_interval`; the boolean records whether the
loop exited through the `high > low` success break.  The first `Nat`
argument is structural fuel: starting from `fuel = n` with `allow = 0` the
fuel can only run out once `2 * allow < n` has already failed, and the
fuel-exhaustion result coincides with the loop-exit result, so the fuel
never changes the value. -/
def find_interval_loop (chime_list : List CandidateTuple) (n : Nat) :
    Nat → Nat → Int → Int → Bool × Int × Int
  | 0, _, low, high => (false, low, high)
  | fuel + 1, allow, low, high =>
    if 2 * allow < n then
      let s1 := lower_sweep n 0 0 chime_list
      let low := s1.1.getD low
      let s2 := upper_sweep n 0 s1.2 chime_list.reverse
      let high := s2.1.getD high
      if allow < s2.2 then find_interval_loop chime_list n fuel (allow + 1) low high
      else if low < high then (true, low, high)
      else find_interval_loop chime_list n fuel (allow + 1) low high
    else
      (false, low, high)

/-- The initial value of `low`: `NtpDuration::ONE * 2_000_000_000`. -/
def find_interval_low_sentinel : Int := mulD NtpDuration.ONE 2000000000

/-- The initial value of `high`: `low * -164` (which wraps in 64 bits). -/
def find_interval_high_sentinel : Int := mulD find_interval_low_sentinel (-164)

/-- `find_interval`. -/
def find_interval (chime_list : List CandidateTuple) : Int × Int :=
  (find_interval_loop chime_list chime_list.length chime_list.length 0
    find_interval_low_sentinel find_interval_high_sentinel).2

/-- Whether `find_interval` exits through the `high > low` success break
(rather than by exhausting the `allow` range). -/
def find_interval_converged (chime_list : List CandidateTuple) : Bool :=
  (find_interval_loop chime_list chime_list.length chime_list.length 0
    find_interval_low_sentinel find_interval_high_sentinel).1

/-- Number of `Lower` tuples in a chime list. -/
def countL : List CandidateTuple → Nat
  | [] => 0
  | t :: rest => (if t.endpoint_type = EndpointType.Lower then 1 else 0) + countL rest

/-- Number of `Middle` tuples in a chime list. -/
def countM : List CandidateTuple → Nat
  | [] => 0
  | t :: rest => (if t.endpoint_type = EndpointType.Middle then 1 else 0) + countM rest

/-- Number of `Upper` tuples in a chime list. -/
def countU : List CandidateTuple → Nat
  | [] => 0
  | t :: rest => (if t.endpoint_type = EndpointType.Upper then 1 else 0) + countU rest

/-! Concrete fixtures used by the per-claim theorems below. -/

/-- A packet accepted by `update_with_packet` in client mode, with
`T1 = origin = 0 s`, `T2 = receive = 1 s`, `T3 = transmit = 2 s`
(`T4 = destination = 3 s` is passed at the call site). -/
def c1_packet : NtpHeader :=
  { leap := .NoWarning, mode := .Client, stratum := 1, poll := 6, precision := 0
    root_delay := 0, root_dispersion := 0, reference_id := 0
    reference_timestamp := 0, origin_timestamp := 0
    receive_timestamp := 2 ^ 32, transmit_timestamp := 2 * 2 ^ 32 }

/-- A baseline peer: fresh register, zero statistics, zero reach. -/
def base_peer : Peer :=
  { statistics := { offset := 0, delay := 0, dispersion := 0, jitter := (0 : ℝ) }
    last_measurements := LastMeasurements.new
    last_packet := c1_packet
    time := 0, peer_id := 0, our_id := 0, host_poll := 0, burst := 0
    out_date := 0, next_date := 0, reach := 0 }

/-- An old register entry with a delay of 1 s and a time (200) newer than
the peer time (100). -/
def c2_old_tuple : FilterTuple :=
  { offset := 7, delay := 2 ^ 32, dispersion := 0, time := 200 }

/-- A peer whose register already holds `c2_old_tuple`; its `time` is 100. -/
def c2_peer : Peer :=
  { base_peer with
      time := 100
      last_measurements := ⟨c2_old_tuple :: List.replicate 7 FilterTuple.DUMMY⟩ }

/-- A new sample with time 50 (not newer than `c2_peer.time = 100`) but a
larger delay (2 s) than the old register entry. -/
def c2_new_tuple : FilterTuple :=
  { offset := 3, delay := 2 * 2 ^ 32, dispersion := 0, time := 50 }

/-- A peer that is synchronized at stratum 1 with zero root distance
inputs but a zero (`unreachable`) reachability register. -/
def c4_peer : Peer := base_peer

/-- The chime list of spec scenario S6: three peers with correctness
intervals `[-1, 1]`, `[-0.9, 1.1]` and `[10, 12]` seconds (edges in
2^-32 s units, the 0.9/1.1/0.1 second values rounded to the nearest
unit), sorted by edge as `construct_candidate_list` produces it. -/
def chime_s6 : List CandidateTuple :=
  [ ⟨.Lower, -(2 ^ 32)⟩, ⟨.Lower, -3865470566⟩, ⟨.Middle, 0⟩, ⟨.Middle, 429496730⟩
  , ⟨.Upper, 2 ^ 32⟩, ⟨.Upper, 4724464026⟩, ⟨.Lower, 10 * 2 ^ 32⟩
  , ⟨.Middle, 11 * 2 ^ 32⟩, ⟨.Upper, 12 * 2 ^ 32⟩ ]

/-- An adversarial two-tuple chime list: one midpoint and one upper edge
that exceeds the +2e9 s low sentinel (representable: it is below 2^63 in
2^-32 s units, about 2.095e9 seconds). -/
def c5_cex : List CandidateTuple :=
  [ ⟨.Middle, 0⟩, ⟨.Upper, 9000000000000000000⟩ ]

/-- A peer in burst mode whose next poll date (5) is already in the past. -/
def c9_peer : Peer := { base_peer with burst := 1, next_date := 5 }

/-! Helper lemmas. -/

theorem age_tuple_dummy (c : Int) : age_tuple c FilterTuple.DUMMY = FilterTuple.DUMMY := by
  simp [age_tuple, FilterTuple.is_dummy]

theorem shift_loop_eq (c : Int) :
    ∀ (l : List FilterTuple) (cur : FilterTuple), l ≠ [] →
      shift_loop c cur l = cur :: l.dropLast.map (age_tuple c) := by
  intro l
  induction l with
  | nil => intro cur h; exact absurd rfl h
  | cons t rest ih =>
    intro cur _
    cases rest with
    | nil => simp [shift_loop]
    | cons r rs =>
      rw [shift_loop, ih (age_tuple c t) (by simp)]
      simp [List.dropLast]

/-! Per-claim theorems. -/

/-- Claim C6: after `shift_and_insert(s, a)` on an 8-stage register,
stage 0 is exactly `s` (its dispersion untouched), each previous stage
`i ≤ 6` moves to stage `i+1` aged by `a` (with dummies staying exactly
the dummy), and the previous stage 7 is discarded (the length stays 8). -/
theorem c6_shift_and_insert (lm : LastMeasurements) (s : FilterTuple) (a : Int)
    (h8 : lm.register.length = 8) :
    (lm.shift_and_insert s a).register.length = 8 ∧
      (lm.shift_and_insert s a).register[0]? = some s ∧
      (∀ i : Nat, i < 7 →
        (lm.shift_and_insert s a).register[i + 1]? = (lm.register[i]?).map (age_tuple a)) ∧
      (∀ i : Nat, i < 7 → lm.register[i]? = some FilterTuple.DUMMY →
        (lm.shift_and_insert s a).register[i + 1]? = some FilterTuple.DUMMY) := by
  have hne : lm.register ≠ [] := by
    intro h
    rw [h] at h8
    simp at h8
  have hsh : (lm.shift_and_insert s a).register = s :: lm.register.dropLast.map (age_tuple a) :=
    shift_loop_eq a lm.register s hne
  refine ⟨?_, ?_, ?_, ?_⟩
  · rw [hsh]
    simp [h8]
  · rw [hsh]
    simp
  · intro i hi
    have hib : i < lm.register.length := by omega
    rw [hsh]
    simp [List.getElem?_dropLast, h8, hi, List.getElem?_eq_getElem hib]
  · intro i hi hdum
    have hib : i < lm.register.length := by omega
    rw [List.getElem?_eq_getElem hib] at hdum
    have hv := Option.some.inj hdum
    rw [hsh]
    simp [List.getElem?_dropLast, h8, hi, List.getElem?_eq_getElem hib, hv, age_tuple_dummy]

/-- Witness for C6 at a concrete input: a fresh register receives the
sample ⟨1, 2, 3, 4⟩ with aging 5; stage 0 becomes the sample and the old
dummy at stage 0 moves to stage 1 unchanged. -/
theorem c6_shift_and_insert_witness :
    LastMeasurements.new.register.length = 8 ∧
      (LastMeasurements.new.shift_and_insert ⟨1, 2, 3, 4⟩ 5).register[0]? = some ⟨1, 2, 3, 4⟩ ∧
      (LastMeasurements.new.shift_and_insert ⟨1, 2, 3, 4⟩ 5).register[1]? =
        some FilterTuple.DUMMY :=
  ⟨by decide, (c6_shift_and_insert LastMeasurements.new ⟨1, 2, 3, 4⟩ 5 (by decide)).2.1,
    (c6_shift_and_insert LastMeasurements.new ⟨1, 2, 3, 4⟩ 5 (by decide)).2.2.2 0 (by decide)
      (by decide)⟩

/-- Claim C7: the jitter computation is clamped from below by the system
precision, for every register contents and anchor — including an empty or
singleton valid prefix (where the `f64` pipeline produces NaN or infinity
and Rust's NaN-ignoring `f64::max` still yields the clamp). -/
theorem c7_jitter_floor (source : List FilterTuple) (anchor : FilterTuple)
    (system_precision : ℝ) :
    (system_precision ≤
        (TemporaryList.from_clock_filter_contents ⟨source⟩).jitter anchor system_precision) ∧
      ∀ valid_tuples : List FilterTuple,
        system_precision ≤ TemporaryList.jitter_help valid_tuples anchor system_precision := by
  constructor
  · unfold TemporaryList.jitter TemporaryList.jitter_help
    exact le_max_right _ _
  · intro valid_tuples
    unfold TemporaryList.jitter_help
    exact le_max_right _ _

/-- Claim C1 (code bug): on an accepted client-mode packet with
`T1 = 0 s`, `T2 = 1 s`, `T3 = 2 s`, `T4 = 3 s` and zero system precision,
the code returns a sample whose delay is 4 s — it computes
`(T4 - T1) - (T2 - T3)` — whereas the specified formula
`max(system_precision, (T4 - T1) - (T3 - T2))` yields 2 s. -/
theorem c1_delay_formula_eval :
    ((base_peer.update_with_packet (3 * 2 ^ 32) 0 c1_packet (3 * 2 ^ 32)).1.map
        FilterTuple.delay = some (4 * 2 ^ 32)) ∧
      max (0 : Int) (subD (tsSub (3 * 2 ^ 32) 0) (tsSub (2 * 2 ^ 32) (2 ^ 32))) = 2 * 2 ^ 32 ∧
      (4 * 2 ^ 32 : Int) ≠ 2 * 2 ^ 32 := by decide

/-- Claim C3 (code bug): on the spec scenario S6 chime list (correctness
intervals `[-1,1]`, `[-0.9,1.1]`, `[10,12]` seconds), `find_interval`
never takes its success break — its sweep threshold compares against the
chime-list length instead of the peer count — and returns the raw
sentinels instead of the expected `(≈ -0.9 s, 1.0 s)`. -/
theorem c3_find_interval_eval :
    find_interval chime_s6 = (find_interval_low_sentinel, find_interval_high_sentinel) ∧
      find_interval_converged chime_s6 = false ∧
      (find_interval chime_s6).2 < (find_interval chime_s6).1 ∧
      find_interval chime_s6 ≠ (-3865470566, 2 ^ 32) := by decide

/-- Counterexample to claim C5 as stated: on the chime list `c5_cex`
(a midpoint plus one upper edge beyond the low sentinel) `find_interval`
terminates without declaring success, yet the returned pair has
`high > low`. -/
theorem c5_no_success_high_gt_low :
    find_interval_converged c5_cex = false ∧
      (find_interval c5_cex).1 < (find_interval c5_cex).2 := by decide

/-- Counterexample to claim C2 as stated: with a synchronized system leap
indicator and a new sample whose time (50) is not newer than the peer
time (100), `clock_filter` nevertheless returns `Process` and updates
`peer.time` — the prime-directive check tests the smallest-delay tuple of
the register (here an older entry with time 200), not the new sample. -/
theorem c2_stale_sample_processed :
    NtpLeapIndicator.is_synchronized .NoWarning = true ∧
      c2_new_tuple.time ≤ c2_peer.time ∧
      (c2_peer.clock_filter c2_new_tuple .NoWarning 0).1 = Decision.Process ∧
      ((c2_peer.clock_filter c2_new_tuple .NoWarning 0).2).time ≠ c2_peer.time :=
  ⟨rfl, by decide, rfl, by decide⟩

/-- Counterexample to claim C9 as stated: in burst mode with
`next_date ≠ now`, `poll_update` returns before the final clamp, leaving
`next_date` (5) in the past of `now` (2^32). -/
theorem c9_burst_skips_clamp :
    0 < c9_peer.burst ∧
      (c9_peer.poll_update (2 ^ 32) 0).next_date = 5 ∧
      (c9_peer.poll_update (2 ^ 32) 0).next_date < 2 ^ 32 :=
  ⟨by decide, rfl, by decide⟩

/-- Claim C8: every rejected packet (unsynchronized leap, stratum still at
or above `MAX_STRATUM` after the stratum-0 rewrite, excessive root
distance, or reference timestamp after the transmit timestamp) produces no
sample and leaves the peer unchanged except for `last_packet`, which holds
the stratum-normalized packet. -/
theorem c8_reject_paths (p : Peer) (local_clock_time : Nat) (system_precision : Int)
    (packet : NtpHeader) (destination_timestamp : Nat)
    (hrej : (normalize_stratum packet).leap.is_synchronized = false ∨
        MAX_STRATUM ≤ (normalize_stratum packet).stratum ∨
        NtpDuration.MAX_DISPERSION ≤
          addD (divD (normalize_stratum packet).root_delay 2)
            (normalize_stratum packet).root_dispersion ∨
        (normalize_stratum packet).transmit_timestamp <
          (normalize_stratum packet).reference_timestamp) :
    p.update_with_packet local_clock_time system_precision packet destination_timestamp =
      (none, { p with last_packet := normalize_stratum packet }) := by
  unfold Peer.update_with_packet
  by_cases h1 : (normalize_stratum packet).leap.is_synchronized = false ∨
      MAX_STRATUM ≤ (normalize_stratum packet).stratum
  · rw [if_pos h1]
  · rw [if_neg h1]
    have h2 : NtpDuration.MAX_DISPERSION ≤
        addD (divD (normalize_stratum packet).root_delay 2)
          (normalize_stratum packet).root_dispersion ∨
        (normalize_stratum packet).transmit_timestamp <
          (normalize_stratum packet).reference_timestamp := by tauto
    rw [if_pos h2]

/-- Witness for C8 at a concrete input: an unsynchronized packet is
rejected, only `last_packet` changes. -/
theorem c8_reject_paths_witness :
    (normalize_stratum { c1_packet with leap := .Unsynchronized }).leap.is_synchronized
        = false ∧
      base_peer.update_with_packet 0 0 { c1_packet with leap := .Unsynchronized } 0 =
        (none,
          { base_peer with
              last_packet := normalize_stratum { c1_packet with leap := .Unsynchronized } }) :=
  ⟨by decide,
    c8_reject_paths base_peer 0 0 { c1_packet with leap := .Unsynchronized } 0
      (Or.inl (by decide))⟩

/-- `poll_update` never touches the reachability register. -/
theorem poll_update_reach (p : Peer) (local_clock_time : Nat) (poll_interval : Int) :
    (p.poll_update local_clock_time poll_interval).reach = p.reach := by
  unfold Peer.poll_update
  dsimp only
  repeat' split
  all_goals rfl

/-- `clock_filter` never touches the reachability register. -/
theorem clock_filter_reach (p : Peer) (new_tuple : FilterTuple)
    (system_leap_indicator : NtpLeapIndicator) (system_precision : ℝ) :
    ((p.clock_filter new_tuple system_leap_indicator system_precision).2).reach = p.reach := by
  unfold Peer.clock_filter
  dsimp only
  split <;> rfl

/-- `update_with_packet` either rejects (no sample, reach untouched) or
accepts (a sample, reach updated by setting the low bit). -/
theorem update_with_packet_reach_cases (p : Peer) (local_clock_time : Nat)
    (system_precision : Int) (packet : NtpHeader) (destination_timestamp : Nat) :
    ((p.update_with_packet local_clock_time system_precision packet
        destination_timestamp).1 = none ∧
      (p.update_with_packet local_clock_time system_precision packet
        destination_timestamp).2.reach = p.reach) ∨
    ((p.update_with_packet local_clock_time system_precision packet
        destination_timestamp).1.isSome = true ∧
      (p.update_with_packet local_clock_time system_precision packet
        destination_timestamp).2.reach = Reach.update p.reach) := by
  unfold Peer.update_with_packet
  by_cases h1 : (normalize_stratum packet).leap.is_synchronized = false ∨
      MAX_STRATUM ≤ (normalize_stratum packet).stratum
  · rw [if_pos h1]
    exact Or.inl ⟨rfl, rfl⟩
  · rw [if_neg h1]
    by_cases h2 : NtpDuration.MAX_DISPERSION ≤
        addD (divD (normalize_stratum packet).root_delay 2)
          (normalize_stratum packet).root_dispersion ∨
        (normalize_stratum packet).transmit_timestamp <
          (normalize_stratum packet).reference_timestamp
    · rw [if_pos h2]
      exact Or.inl ⟨rfl, rfl⟩
    · rw [if_neg h2]
      refine Or.inr ⟨rfl, ?_⟩
      show Reach.update
        (({ p with last_packet := normalize_stratum packet }).poll_update local_clock_time
          ({ p with last_packet := normalize_stratum packet}).host_poll).reach =
        Reach.update p.reach
      rw [poll_update_reach]

/-- Setting the low bit makes the register nonzero. -/
theorem reach_update_reachable (r : Nat) : Reach.is_reachable (Reach.update r) = true := by
  simp only [Reach.is_reachable, Reach.update, decide_eq_true_eq]
  intro h
  have h1 : (r ||| 1).testBit 0 = true := by simp [Nat.testBit_lor]
  rw [h, Nat.zero_testBit] at h1
  exact Bool.noConfusion h1

/-- Claim C10: within this module the reachability register is only ever
set, never shifted or cleared: `clock_filter` and `poll_update` preserve
it, `update_with_packet` preserves it or ors in the low bit, an accepted
packet makes the peer reachable, and reachability, once true, is
preserved by every operation. -/
theorem c10_reach_invariant :
    (∀ (p : Peer) (s : FilterTuple) (li : NtpLeapIndicator) (sp : ℝ),
        ((p.clock_filter s li sp).2).reach = p.reach) ∧
      (∀ (p : Peer) (lct : Nat) (pi : Int), (p.poll_update lct pi).reach = p.reach) ∧
      (∀ (p : Peer) (lct : Nat) (sp : Int) (pkt : NtpHeader) (dst : Nat),
        (p.update_with_packet lct sp pkt dst).2.reach = p.reach ∨
          (p.update_with_packet lct sp pkt dst).2.reach = Reach.update p.reach) ∧
      (∀ (p : Peer) (lct : Nat) (sp : Int) (pkt : NtpHeader) (dst : Nat),
        (p.update_with_packet lct sp pkt dst).1.isSome = true →
          Reach.is_reachable (p.update_with_packet lct sp pkt dst).2.reach = true) ∧
      (∀ p : Peer, Reach.is_reachable p.reach = true →
        ∀ (s : FilterTuple) (li : NtpLeapIndicator) (sp : ℝ) (lct : Nat) (pi : Int)
          (sysp : Int) (pkt : NtpHeader) (dst : Nat),
          Reach.is_reachable ((p.clock_filter s li sp).2).reach = true ∧
            Reach.is_reachable (p.poll_update lct pi).reach = true ∧
            Reach.is_reachable (p.update_with_packet lct sysp pkt dst).2.reach = true) := by
  refine ⟨clock_filter_reach, poll_update_reach, ?_, ?_, ?_⟩
  · intro p lct sp pkt dst
    rcases update_with_packet_reach_cases p lct sp pkt dst with ⟨_, h⟩ | ⟨_, h⟩
    · exact Or.inl h
    · exact Or.inr h
  · intro p lct sp pkt dst hsome
    rcases update_with_packet_reach_cases p lct sp pkt dst with ⟨hnone, _⟩ | ⟨_, h⟩
    · rw [hnone] at hsome
      simp at hsome
    · rw [h]
      exact reach_update_reachable p.reach
  · intro p hreach s li sp lct pi sysp pkt dst
    refine ⟨?_, ?_, ?_⟩
    · rw [clock_filter_reach]
      exact hreach
    · rw [poll_update_reach]
      exact hreach
    · rcases update_with_packet_reach_cases p lct sysp pkt dst with ⟨_, h⟩ | ⟨_, h⟩
      · rw [h]
        exact hreach
      · rw [h]
        exact reach_update_reachable p.reach

/-- Witness for C10 at concrete inputs: a reachable peer stays reachable
through `poll_update`, and an accepted packet makes `base_peer` (reach 0)
reachable. -/
theorem c10_reach_invariant_witness :
    Reach.is_reachable (1 : Nat) = true ∧
      Reach.is_reachable (({ base_peer with reach := 1 }).poll_update 0 0).reach = true ∧
      (base_peer.update_with_packet (3 * 2 ^ 32) 0 c1_packet (3 * 2 ^ 32)).1.isSome = true ∧
      Reach.is_reachable
        (base_peer.update_with_packet (3 * 2 ^ 32) 0 c1_packet (3 * 2 ^ 32)).2.reach = true :=
  ⟨by decide,
    (c10_reach_invariant.2.2.2.2 { base_peer with reach := 1 } (by decide) ⟨0, 0, 0, 0⟩
      .NoWarning 0 0 0 0 c1_packet 0).2.1,
    by decide,
    c10_reach_invariant.2.2.2.1 base_peer (3 * 2 ^ 32) 0 c1_packet (3 * 2 ^ 32) (by decide)⟩

set_option maxRecDepth 100000 in
/-- Claim C4 (code bug): a peer whose reachability register is zero is
nevertheless accepted by `accept_synchronization` — the reference
algorithm's unreachability check is left as a TODO in the source.  The
concrete peer is synchronized at stratum 1 with zero-root-distance inputs
and `reach = 0`. -/
theorem c4_accept_ignores_reach :
    c4_peer.reach = 0 ∧ c4_peer.accept_synchronization 0 0 = true := by
  constructor
  · rfl
  · have h0 : NtpDuration.from_seconds c4_peer.statistics.jitter = 0 := by
      show NtpDuration.from_seconds (0 : ℝ) = 0
      unfold NtpDuration.from_seconds
      norm_num
    unfold Peer.accept_synchronization Peer.root_distance
    rw [h0]
    decide

/-- Claim C2, amended: the prime-directive guard tests the time of the
smallest-delay tuple of the register after the shift-and-insert (not the
new sample's time).  When the system is synchronized and that tuple's time
is not newer than `peer.time`, `clock_filter` returns `Ignore` and the only
state change is the shift-and-insert itself (statistics and time keep
their old values). -/
theorem c2_prime_directive_amended (p : Peer) (new_tuple : FilterTuple)
    (system_leap_indicator : NtpLeapIndicator) (system_precision : ℝ)
    (hsync : system_leap_indicator.is_synchronized = true)
    (hstale : tsSub ((TemporaryList.from_clock_filter_contents
        (p.last_measurements.shift_and_insert new_tuple
          (multiply_by_phi (tsSub new_tuple.time p.time)))).smallest_delay).time p.time ≤
        NtpDuration.ZERO) :
    p.clock_filter new_tuple system_leap_indicator system_precision =
      (Decision.Ignore,
        { p with
            last_measurements := p.last_measurements.shift_and_insert new_tuple
              (multiply_by_phi (tsSub new_tuple.time p.time)) }) := by
  unfold Peer.clock_filter
  dsimp only
  rw [if_pos ⟨hstale, hsync⟩]

/-- Witness for the amended C2 at a concrete input: a fresh peer at time 0
receives the all-zero sample; the smallest-delay tuple is that sample
(time 0, not newer), so the filter ignores it and only the register
changes. -/
theorem c2_prime_directive_amended_witness :
    NtpLeapIndicator.is_synchronized .NoWarning = true ∧
      base_peer.clock_filter ⟨0, 0, 0, 0⟩ .NoWarning 0 =
        (Decision.Ignore,
          { base_peer with
              last_measurements := base_peer.last_measurements.shift_and_insert ⟨0, 0, 0, 0⟩
                (multiply_by_phi (tsSub (FilterTuple.mk 0 0 0 0).time base_peer.time)) }) :=
  ⟨rfl, c2_prime_directive_amended base_peer ⟨0, 0, 0, 0⟩ .NoWarning 0 rfl (by decide)⟩

/-- A wrapping timestamp-plus-duration never moves backward when the
mathematical sum stays below 2^64. -/
theorem le_tsAdd (t : Nat) (d : Int) (h0 : 0 ≤ d) (hlt : (t : Int) + d < 2 ^ 64) :
    t ≤ tsAdd t d := by
  unfold tsAdd
  omega

/-- Claim C9, amended: on every path that does not take the burst-mode
early return — that is, whenever `burst = 0` or `next_date = now` on entry
— and absent 64-bit timestamp wraparound (`now + 1 s` fits), `poll_update`
leaves `next_date` at or after `now`.  (On the early-return path
`next_date` is unchanged and may remain in the past.) -/
theorem c9_poll_update_amended (p : Peer) (now : Nat) (poll_interval : Int)
    (hwrap : (now : Int) + 2 ^ 32 < 2 ^ 64)
    (hpath : p.burst = 0 ∨ p.next_date = now) :
    now ≤ (p.poll_update now poll_interval).next_date := by
  unfold Peer.poll_update
  dsimp only
  by_cases hb : 0 < p.burst
  · have hnd : p.next_date = now := by
      rcases hpath with h | h
      · omega
      · exact h
    rw [if_pos hb, if_neg (by simp [hnd]), hnd]
    have hge : now ≤ tsAdd now BROADCAST_DELAY :=
      le_tsAdd now BROADCAST_DELAY (by decide)
        (by have : BROADCAST_DELAY < 2 ^ 32 := by decide
            omega)
    rw [if_neg (by omega)]
    exact hge
  · rw [if_neg hb]
    by_cases hq : tsAdd p.out_date
        (clamp_ntp_duration (NtpDuration.from_exponent 4)
          (clamp_ntp_duration (NtpDuration.from_exponent 4) poll_interval
            (NtpDuration.from_exponent 17))
          (NtpDuration.from_exponent p.last_packet.poll)) < now
    · rw [if_pos hq]
      exact le_tsAdd now NtpDuration.ONE (by decide) (by unfold NtpDuration.ONE; omega)
    · rw [if_neg hq]
      exact Nat.not_lt.mp hq

/-- Witness for the amended C9 at a concrete input: `base_peer` has
`burst = 0`; polled at `now = 100` its next poll date lands at or after
100. -/
theorem c9_poll_update_amended_witness :
    ((100 : Nat) : Int) + 2 ^ 32 < 2 ^ 64 ∧ base_peer.burst = 0 ∧
      100 ≤ (base_peer.poll_update 100 0).next_date :=
  ⟨by decide, rfl, c9_poll_update_amended base_peer 100 0 (by decide) (Or.inl rfl)⟩

/-- The three endpoint counts partition the chime list. -/
theorem count_partition (l : List CandidateTuple) :
    countL l + countM l + countU l = l.length := by
  induction l with
  | nil => rfl
  | cons t rest ih =>
    cases h : t.endpoint_type <;> simp [countL, countM, countU, h] <;> omega

/-- The lower sweep never records an endpoint when the running `chime` is
bounded by `X` lower endpoints, the midpoint count stays within `Y`, and
`X + Y < n`; it then returns the midpoint count of the whole list. -/
theorem lower_sweep_no_break (n X Y : Nat) (hXY : X + Y < n) (hn : n < 2 ^ 31) :
    ∀ (l : List CandidateTuple) (chime : Int) (found : Nat),
      chime + countL l ≤ (X : Int) →
      found + countM l ≤ Y →
      -(n : Int) + l.length ≤ chime →
      lower_sweep n chime found l = (none, found + countM l) := by
  intro l
  induction l with
  | nil =>
    intro chime found _ _ _
    simp [lower_sweep, countM]
  | cons t rest ih =>
    intro chime found hX hY hlb
    have hlen : (t :: rest).length = rest.length + 1 := rfl
    have hth : i32ofNat (usizeSub n found) = (n : Int) - found := by
      unfold i32ofNat usizeSub i32wrap
      omega
    cases ht : t.endpoint_type with
    | Lower =>
      have hL : countL (t :: rest) = 1 + countL rest := by simp [countL, ht]
      have hM : countM (t :: rest) = countM rest := by simp [countM, ht]
      have hw : i32wrap (chime - t.endpoint_type.value) = chime + 1 := by
        rw [ht, show EndpointType.Lower.value = -1 from rfl]
        unfold i32wrap
        omega
      have hif : (if t.endpoint_type = EndpointType.Middle then found + 1 else found)
          = found := by
        rw [ht]
        simp
      simp only [lower_sweep]
      rw [hw, hth, if_neg (by omega), hif,
        ih (chime + 1) found (by omega) (by omega) (by omega), hM]
    | Middle =>
      have hL : countL (t :: rest) = countL rest := by simp [countL, ht]
      have hM : countM (t :: rest) = 1 + countM rest := by simp [countM, ht]
      have hw : i32wrap (chime - t.endpoint_type.value) = chime := by
        rw [ht, show EndpointType.Middle.value = 0 from rfl]
        unfold i32wrap
        omega
      have hif : (if t.endpoint_type = EndpointType.Middle then found + 1 else found)
          = found + 1 := by
        rw [ht]
        simp
      simp only [lower_sweep]
      rw [hw, hth, if_neg (by omega), hif,
        ih chime (found + 1) (by omega) (by omega) (by omega)]
      simp only [Prod.mk.injEq, true_and]
      omega
    | Upper =>
      have hL : countL (t :: rest) = countL rest := by simp [countL, ht]
      have hM : countM (t :: rest) = countM rest := by simp [countM, ht]
      have hw : i32wrap (chime - t.endpoint_type.value) = chime - 1 := by
        rw [ht, show EndpointType.Upper.value = 1 from rfl]
        unfold i32wrap
        omega
      have hif : (if t.endpoint_type = EndpointType.Middle then found + 1 else found)
          = found := by
        rw [ht]
        simp
      simp only [lower_sweep]
      rw [hw, hth, if_neg (by omega), hif,
        ih (chime - 1) found (by omega) (by omega) (by omega), hM]

/-- Whatever the upper sweep records, it is the edge of some list entry. -/
theorem upper_sweep_mem (n : Nat) :
    ∀ (l : List CandidateTuple) (chime : Int) (found : Nat),
      (upper_sweep n chime found l).1 = none ∨
        ∃ t, t ∈ l ∧ (upper_sweep n chime found l).1 = some t.edge := by
  intro l
  induction l with
  | nil => intro chime found; exact Or.inl rfl
  | cons t rest ih =>
    intro chime found
    simp only [upper_sweep]
    by_cases hbr : i32ofNat (usizeSub n found) ≤ i32wrap (chime + t.endpoint_type.value)
    · rw [if_pos hbr]
      exact Or.inr ⟨t, List.mem_cons_self t rest, rfl⟩
    · rw [if_neg hbr]
      rcases ih (i32wrap (chime + t.endpoint_type.value))
          (if t.endpoint_type = EndpointType.Middle then found + 1 else found) with h | ⟨u, hu, he⟩
      · exact Or.inl h
      · exact Or.inr ⟨u, List.mem_cons_of_mem t hu, he⟩

/-- On a chime list with equally many `Lower`, `Middle` and `Upper` tuples
whose edges do not exceed the low sentinel, every iteration of the `allow`
loop keeps `low` at its sentinel and `high` at or below it, and the
success break is never taken. -/
theorem find_interval_loop_no_success (l : List CandidateTuple)
    (hLM : countL l = countM l) (hUM : countU l = countM l)
    (hn : l.length < 2 ^ 31)
    (hedge : ∀ t ∈ l, t.edge ≤ find_interval_low_sentinel) :
    ∀ (fuel allow : Nat) (high : Int), high ≤ find_interval_low_sentinel →
      ∃ high', find_interval_loop l l.length fuel allow find_interval_low_sentinel high =
          (false, find_interval_low_sentinel, high') ∧
        high' ≤ find_interval_low_sentinel := by
  intro fuel
  induction fuel with
  | zero =>
    intro allow high hh
    exact ⟨high, rfl, hh⟩
  | succ fuel ih =>
    intro allow high hh
    by_cases hal : 2 * allow < l.length
    · have hpart := count_partition l
      have hm1 : 1 ≤ countM l := by omega
      have hlow := lower_sweep_no_break l.length (countM l) (countM l) (by omega) hn l 0 0
        (by omega) (by omega) (by omega)
      have hhigh : (upper_sweep l.length 0 (0 + countM l) l.reverse).1.getD high ≤
          find_interval_low_sentinel := by
        rcases upper_sweep_mem l.length l.reverse 0 (0 + countM l) with hnone | ⟨u, hmem, hsome⟩
        · rw [hnone]
          exact hh
        · rw [hsome]
          exact hedge u (List.mem_reverse.mp hmem)
      obtain ⟨h', heq, hle⟩ := ih (allow + 1)
        ((upper_sweep l.length 0 (0 + countM l) l.reverse).1.getD high) hhigh
      refine ⟨h', ?_, hle⟩
      simp only [find_interval_loop]
      rw [if_pos hal, hlow]
      dsimp only
      simp only [Option.getD_none]
      by_cases hfound : allow < (upper_sweep l.length 0 (0 + countM l) l.reverse).2
      · rw [if_pos hfound]
        exact heq
      · rw [if_neg hfound, if_neg (not_lt.mpr hhigh)]
        exact heq
    · refine ⟨high, ?_, hh⟩
      simp only [find_interval_loop]
      rw [if_neg hal]

/-- Claim C5, amended: on every chime list with equally many `Lower`,
`Middle` and `Upper` tuples (the shape `construct_candidate_list` always
produces) whose edges are at most the low sentinel (2e9 seconds, the
bound the source comments assume as +-2^30 s), `find_interval` terminates
without declaring success and the returned pair satisfies `high <= low`
(the empty chime list, where no sweep iteration runs, included); both
sentinels are representable i64 duration values. -/
theorem c5_unconverged_interval (l : List CandidateTuple)
    (hLM : countL l = countM l) (hUM : countU l = countM l)
    (hlen : l.length < 2 ^ 31)
    (hedge : ∀ t ∈ l, t.edge ≤ find_interval_low_sentinel) :
    find_interval_converged l = false ∧
      (find_interval l).2 ≤ (find_interval l).1 ∧
      -(2 ^ 63) ≤ find_interval_low_sentinel ∧ find_interval_low_sentinel < 2 ^ 63 ∧
      -(2 ^ 63) ≤ find_interval_high_sentinel ∧ find_interval_high_sentinel < 2 ^ 63 := by
  obtain ⟨h', heq, hle⟩ := find_interval_loop_no_success l hLM hUM hlen hedge l.length 0
    find_interval_high_sentinel (by decide)
  refine ⟨?_, ?_, by decide, by decide, by decide, by decide⟩
  · unfold find_interval_converged
    rw [heq]
  · unfold find_interval
    rw [heq]
    exact hle

/-- Witness for the amended C5 at a concrete input: the empty chime list
satisfies the count and edge hypotheses, and `find_interval` returns an
unconverged pair with `high <= low`. -/
theorem c5_unconverged_interval_witness :
    countL [] = countM [] ∧ countU [] = countM [] ∧
      ([] : List CandidateTuple).length < 2 ^ 31 ∧
      find_interval_converged [] = false ∧
      (find_interval ([] : List CandidateTuple)).2 ≤ (find_interval []).1 :=
  ⟨rfl, rfl, by decide, (c5_unconverged_interval [] rfl rfl (by decide) (by simp)).1,
    (c5_unconverged_interval [] rfl rfl (by decide) (by simp)).2.1⟩

end NtpFilter
